import Mathlib

/-!
Verification of the record-mapping core of the airtable Go client
(package airtable, files airtable.go / options.go / fields.go).

The Go code is shallowly embedded: wire bytes that the code immediately
parses with encoding/json are modelled as already-parsed JSON trees,
reflect.Type values are modelled by the inductive GoType, panics and
log.Fatal calls are modelled as the error side of Except, and the
in-place mutation of the record pointed to by recordPtr is modelled by
explicit state passing (each facade operation returns the final record
value together with the list of transport requests it issued).
-/

namespace Airtable

/-- A JSON value, the model of the wire data that the Go code handles as
decoded encoding/json values (float64 numbers are modelled as rationals). -/
inductive JSON where
  | null
  | bool (b : Bool)
  | num (q : Rat)
  | str (s : String)
  | arr (elems : List JSON)
  | obj (kvs : List (String × JSON))

/-- Association-list lookup of a key in a JSON object, the model of a Go
map index expression v[key] on a decoded map[string]interface\x7b\x7d. -/
def jsonLookup (kvs : List (String × JSON)) (key : String) : Option JSON :=
  match kvs.find? (fun p => p.1 == key) with
  | some p => some p.2
  | none => none

/-- Uppercase hex digit for a value below 16. -/
def hexDigit (n : Nat) : Char :=
  if n < 10 then Char.ofNat (48 + n) else Char.ofNat (55 + n)

/-- Two-digit uppercase hex rendering of a byte, as used in percent escapes. -/
def hexByte (n : Nat) : String :=
  String.mk [hexDigit (n / 16), hexDigit (n % 16)]

/-- UTF-8 bytes of a character; Go strings are byte strings and escaping
works byte by byte. -/
def utf8Bytes (c : Char) : List Nat :=
  let n := c.toNat
  if n < 0x80 then [n]
  else if n < 0x800 then [0xC0 + n / 0x40, 0x80 + n % 0x40]
  else if n < 0x10000 then
    [0xE0 + n / 0x1000, 0x80 + (n / 0x40) % 0x40, 0x80 + n % 0x40]
  else
    [0xF0 + n / 0x40000, 0x80 + (n / 0x1000) % 0x40,
      0x80 + (n / 0x40) % 0x40, 0x80 + n % 0x40]

/-- Characters Go never percent-escapes: ASCII alphanumerics and -_.~ . -/
def isUnreserved (c : Char) : Bool :=
  (c ≥ 'a' && c ≤ 'z') || (c ≥ 'A' && c ≤ 'Z') || (c ≥ '0' && c ≤ '9') ||
  c == '-' || c == '_' || c == '.' || c == '~'

/-- Model of net/url QueryEscape: unreserved characters kept, space becomes
a plus sign, every other byte percent-escaped. This is the helper e(s) in
options.go. -/
def queryEscapeChar (c : Char) : String :=
  if isUnreserved c then String.singleton c
  else if c == ' ' then "+"
  else String.join ((utf8Bytes c).map (fun b => "%" ++ hexByte b))

/-- Model of net/url QueryEscape applied to a whole string. -/
def queryEscape (s : String) : String :=
  String.join (s.data.map queryEscapeChar)

/-- Model of net/url PathEscape: unreserved characters and the sub-delims
dollar ampersand plus colon equals at-sign are kept, everything else
(including slash, semicolon, comma, question mark and space) is
percent-escaped. -/
def pathEscapeChar (c : Char) : String :=
  if isUnreserved c then String.singleton c
  else if c == '$' || c == '&' || c == '+' || c == ':' || c == '=' || c == '@' then
    String.singleton c
  else String.join ((utf8Bytes c).map (fun b => "%" ++ hexByte b))

/-- Model of net/url PathEscape applied to a whole string. -/
def pathEscape (s : String) : String :=
  String.join (s.data.map pathEscapeChar)

/-- Reflection kinds, the model of reflect.Kind for the kinds this package
inspects. -/
inductive Kind where
  | ptr
  | struct
  | slice
  | str
  | boolean
  | integer
  | float64
  | map
deriving DecidableEq, Repr

/-- Printed name of a kind, as fmt renders a reflect.Kind in the panic
messages of validateRecordArg and validateListArg. -/
def Kind.name : Kind → String
  | .ptr => "ptr"
  | .struct => "struct"
  | .slice => "slice"
  | .str => "string"
  | .boolean => "bool"
  | .integer => "int"
  | .float64 => "float64"
  | .map => "map"

/-- Model of reflect.Type for the shapes this package inspects. A struct
carries its fields as (name, type, json tag) triples, where the third
component is the result of Tag.Lookup on the key json. -/
inductive GoType where
  | ptr (elem : GoType)
  | struct (fields : List (String × GoType × Option String))
  | slice (elem : GoType)
  | str
  | boolean
  | integer
  | float64
  | mapType (key value : GoType)

/-- Kind of a type, the model of reflect.Type.Kind(). -/
def GoType.kind : GoType → Kind
  | .ptr _ => .ptr
  | .struct _ => .struct
  | .slice _ => .slice
  | .str => .str
  | .boolean => .boolean
  | .integer => .integer
  | .float64 => .float64
  | .mapType _ _ => .map

/-- Element type, the model of reflect.Type.Elem(). reflect panics on
kinds without an element; every use below is guarded by a kind check, so
the catch-all branch is unreachable in the embedded code paths. -/
def GoType.elem : GoType → GoType
  | .ptr e => e
  | .slice e => e
  | .mapType _ v => v
  | t => t

/-- Field lookup by name, the model of reflect.Type.FieldByName on a
struct type (field names in a Go struct are unique). Non-struct kinds
have no fields. -/
def GoType.fieldByName : GoType → String → Option (String × GoType × Option String)
  | .struct fs, n => fs.find? (fun f => f.1 == n)
  | _, _ => none

/-- Model of validateRecordArg (airtable.go): the shape checks run by
Create, Update and Delete, in source order, each panicking with the
descriptive message of the source on failure. Panics are modelled as the
error side of Except. -/
def validateRecordArg (typ : GoType) : Except String Unit :=
  if typ.kind ≠ Kind.ptr then
    Except.error ("airtable type error: recordPtr must be a pointer, got " ++ typ.kind.name)
  else
    let record := typ.elem
    if record.kind ≠ Kind.struct then
      Except.error ("airtable type error: recordPtr must point to a struct, got " ++ record.kind.name)
    else
      match record.fieldByName "Fields" with
      | none =>
        Except.error "airtable type error: recordPtr must point to a struct with field \x27Fields\x27"
      | some fields =>
        if fields.2.1.kind ≠ Kind.struct then
          Except.error ("airtable type error: recordPtr must point to a struct with field \x27Fields\x27 that is a struct, got " ++ fields.2.1.kind.name)
        else
          match record.fieldByName "ID" with
          | none =>
            Except.error "airtable type error: recordPtr must point to a struct with field \x27ID\x27"
          | some idf =>
            if idf.2.1.kind ≠ Kind.str then
              Except.error ("airtable type error: recordPtr must point to a struct with field \x27ID\x27 that is a string, got " ++ idf.2.1.kind.name)
            else Except.ok ()

/-- Model of validateListArg (airtable.go): the shape checks run by List,
in source order, with the messages of the source. -/
def validateListArg (typ : GoType) : Except String Unit :=
  if typ.kind ≠ Kind.ptr then
    Except.error ("airtable type error: listPtr must be a pointer, got " ++ typ.kind.name)
  else
    let list := typ.elem
    if list.kind ≠ Kind.slice then
      Except.error ("airtable type error: listPtr must point to a slice, got " ++ list.kind.name)
    else
      let elem := list.elem
      if elem.kind ≠ Kind.struct then
        Except.error ("airtable type error: listPtr must point to a slice of structs, got " ++ elem.kind.name)
      else
        match elem.fieldByName "Fields" with
        | none =>
          Except.error "airtable type error: listPtr must point to a slice of structs with field \x27Fields\x27"
        | some fields =>
          if fields.2.1.kind ≠ Kind.struct then
            Except.error ("airtable type error: listPtr must point to a slice of structs with field \x27Fields\x27 that is a struct, got " ++ fields.2.1.kind.name)
          else
            match elem.fieldByName "ID" with
            | none =>
              Except.error "airtable type error: listPtr must point to a slice of structs with field \x27ID\x27"
            | some idf =>
              if idf.2.1.kind ≠ Kind.str then
                Except.error ("airtable type error: listPtr must point to a slice of structs with field \x27ID\x27 that is a string, got " ++ idf.2.1.kind.name)
              else Except.ok ()

/-- Minimal JSON string escaping, enough to model encoding/json output on
the values appearing here (quote and backslash escaped). -/
def escapeJSONChar (c : Char) : String :=
  if c == '"' then "\\\""
  else if c == '\\' then "\\\\"
  else String.singleton c

mutual

/-- Model of encoding/json Marshal on an already-generic JSON tree.
Numbers are rendered from the rational model (integral values as
integers, matching Go output on integral float64 values; the claims below
never depend on the rendering of a non-integral number). -/
def JSON.marshal : JSON → String
  | .null => "null"
  | .bool true => "true"
  | .bool false => "false"
  | .num q => if q.den == 1 then toString q.num else toString q.num ++ "/" ++ toString q.den
  | .str s => "\"" ++ String.join (s.data.map escapeJSONChar) ++ "\""
  | .arr elems => "[" ++ String.intercalate "," (JSON.marshalList elems) ++ "]"
  | .obj kvs => "\x7b" ++ String.intercalate "," (JSON.marshalKVs kvs) ++ "\x7d"

/-- Marshal the elements of a JSON array. -/
def JSON.marshalList : List JSON → List String
  | [] => []
  | j :: rest => JSON.marshal j :: JSON.marshalList rest

/-- Marshal the key-value pairs of a JSON object. -/
def JSON.marshalKVs : List (String × JSON) → List String
  | [] => []
  | p :: rest =>
    ("\"" ++ String.join (p.1.data.map escapeJSONChar) ++ "\":" ++ JSON.marshal p.2) ::
      JSON.marshalKVs rest

end

/-- The data of a user record as seen through reflection: the string ID
member, the CreatedTime member (a time.Time modelled by its RFC3339 text,
with the zero time.Time modelled by the empty string), and the Fields
struct in its generic JSON form. -/
structure RecordVal where
  id : String
  createdTime : String
  fields : JSON

/-- A record argument as the facade receives it: the reflect.Type of the
recordPtr interface value together with the pointed-to data. On
shape-invalid arguments the data component is never consulted before the
validation failure. -/
structure RecordArg where
  typ : GoType
  val : RecordVal

/-- A list argument as List receives it: the reflect.Type of the listPtr
interface value together with the pointed-to slice contents. -/
structure ListArg where
  typ : GoType
  val : List RecordVal

/-- Model of getFields (airtable.go): reflect lookup of the Fields member. -/
def getFields (r : RecordVal) : JSON :=
  r.fields

/-- Model of getID (airtable.go): reflect lookup of the ID member. -/
def getID (r : RecordVal) : String :=
  r.id

/-- Model of makeJSONBody (airtable.go): marshal the Fields member and wrap
it in the \x7b"fields": ...\x7d envelope. json.Marshal cannot fail on the
generic JSON model of the Fields value, so the error return of the source
is never taken here. -/
def makeJSONBody (r : RecordVal) : String :=
  "\x7b\"fields\": " ++ (getFields r).marshal ++ "\x7d"

/-- Model of markAsDeleted (airtable.go): clear the ID member and set the
CreatedTime member to the zero time.Time. The IsValid guards of the
source hold for every shape that passed validateRecordArg together with a
CreatedTime member, which the record model always carries. -/
def markAsDeleted (r : RecordVal) : RecordVal :=
  { id := "", createdTime := "", fields := r.fields }

/-- One transport request as issued through Client.Request /
Client.RequestWithBody: method, already-escaped path, encoded query
string, and optional body text. -/
structure Request where
  method : String
  path : String
  query : String
  body : Option String
deriving DecidableEq, Repr

/-- A transport collaborator: maps a request to response bytes (modelled
as a parsed JSON tree) or to a request error. -/
def Transport : Type :=
  Request → Except String JSON

/-- The data of a Table value (airtable.go): the table name; the client is
abstracted into the transport argument of each operation. -/
structure Table where
  name : String

/-- Model of Table.makePath (airtable.go): PathEscape the table name and
join the record id with a slash when one is given (path.Join on two
nonempty clean segments). -/
def Table.makePath (t : Table) (id : String) : String :=
  let n := pathEscape t.name
  if id = "" then n else n ++ "/" ++ id

/-- ASCII lowercase of one character. -/
def lowerChar (c : Char) : Char :=
  if c ≥ 'A' && c ≤ 'Z' then Char.ofNat (c.toNat + 32) else c

/-- ASCII case-insensitive string equality, as encoding/json matches an
exported struct field name against a wire key. -/
def eqCI (a b : String) : Bool :=
  a.data.map lowerChar == b.data.map lowerChar

/-- Case-insensitive object key lookup, the model of encoding/json
matching an exported struct field name against a wire key. -/
def jsonLookupCI (kvs : List (String × JSON)) (key : String) : Option JSON :=
  match kvs.find? (fun p => eqCI p.1 key) with
  | some p => some p.2
  | none => none

/-- Model of json.Unmarshal(bytes, recordPtr) for a record struct: requires
a pointer target, accepts null as a no-op, and on an object sets ID,
CreatedTime and Fields from the matching keys (absent or null keys leave
the previous value; a wrongly-typed id or createdTime is a decode error). -/
def unmarshalRecordInto (typ : GoType) (j : JSON) (r : RecordVal) : Except String RecordVal :=
  if typ.kind ≠ Kind.ptr then
    Except.error ("json: Unmarshal(non-pointer " ++ typ.kind.name ++ ")")
  else
    match j with
    | .null => Except.ok r
    | .obj kvs => do
      let id ← match jsonLookupCI kvs "id" with
        | none => Except.ok r.id
        | some (.str s) => Except.ok s
        | some .null => Except.ok r.id
        | some _ => Except.error "json: cannot unmarshal value into Go struct field ID of type string"
      let ct ← match jsonLookupCI kvs "createdtime" with
        | none => Except.ok r.createdTime
        | some (.str s) => Except.ok s
        | some .null => Except.ok r.createdTime
        | some _ => Except.error "json: cannot unmarshal value into Go struct field CreatedTime of type time.Time"
      let f := match jsonLookupCI kvs "fields" with
        | none => r.fields
        | some .null => r.fields
        | some v => v
      Except.ok ⟨id, ct, f⟩
    | _ => Except.error "json: cannot unmarshal value into Go value of type struct"

/-- The deleteResponse struct of airtable.go. -/
structure DeleteResponse where
  deleted : Bool
  id : String

/-- Model of json.Unmarshal(res, deleteResponse\x7b\x7d): a fresh zero
struct, bool Deleted from the deleted key, string ID from the id key;
absent or null keys keep the zero value, wrongly-typed values are decode
errors, null input is a no-op and non-object input is a decode error. -/
def unmarshalDeleteResponse (j : JSON) : Except String DeleteResponse :=
  match j with
  | .null => Except.ok ⟨false, ""⟩
  | .obj kvs => do
    let d ← match jsonLookupCI kvs "deleted" with
      | none => Except.ok false
      | some (.bool b) => Except.ok b
      | some .null => Except.ok false
      | some _ => Except.error "json: cannot unmarshal value into Go struct field Deleted of type bool"
    let i ← match jsonLookupCI kvs "id" with
      | none => Except.ok ""
      | some (.str s) => Except.ok s
      | some .null => Except.ok ""
      | some _ => Except.error "json: cannot unmarshal value into Go struct field ID of type string"
    Except.ok ⟨d, i⟩
  | _ => Except.error "json: cannot unmarshal value into Go value of type airtable.deleteResponse"

/-- Outcome of one facade operation: a panic (shape validation or body
construction), a returned error, or a nil error return. -/
inductive OpOutcome where
  | panicked (msg : String)
  | failed (msg : String)
  | succeeded
deriving DecidableEq, Repr

/-- Trace of one facade operation: its outcome, the final state of the
data the caller passed by pointer, and the transport requests issued. -/
structure OpTrace (α : Type) where
  outcome : OpOutcome
  state : α
  requests : List Request

/-- Model of Table.Get (airtable.go): issue the GET on table/id (nil
options, empty query) and json.Unmarshal the response into recordPtr.
Note the source performs no shape validation in Get. -/
def Table.get (t : Table) (transport : Transport) (id : String) (arg : RecordArg) :
    OpTrace RecordVal :=
  let req : Request := ⟨"GET", t.makePath id, "", none⟩
  match transport req with
  | .error e => ⟨.failed e, arg.val, [req]⟩
  | .ok j =>
    match unmarshalRecordInto arg.typ j arg.val with
    | .error e => ⟨.failed e, arg.val, [req]⟩
    | .ok v => ⟨.succeeded, v, [req]⟩

/-- Model of Table.Update (airtable.go): validate the record shape
(panicking on failure before any request), read the ID, build the write
body from the Fields member, and issue the PATCH on table/id with an
empty-Options query; the response bytes are discarded. -/
def Table.update (t : Table) (transport : Transport) (arg : RecordArg) :
    OpTrace RecordVal :=
  match validateRecordArg arg.typ with
  | .error m => ⟨.panicked m, arg.val, []⟩
  | .ok _ =>
    let id := getID arg.val
    let body := makeJSONBody arg.val
    let req : Request := ⟨"PATCH", t.makePath id, "", some body⟩
    match transport req with
    | .error e => ⟨.failed e, arg.val, [req]⟩
    | .ok _ => ⟨.succeeded, arg.val, [req]⟩

/-- Model of Table.Create (airtable.go): validate the record shape, build
the write body from the Fields member, issue the POST on the table path,
and json.Unmarshal the response back into recordPtr. -/
def Table.create (t : Table) (transport : Transport) (arg : RecordArg) :
    OpTrace RecordVal :=
  match validateRecordArg arg.typ with
  | .error m => ⟨.panicked m, arg.val, []⟩
  | .ok _ =>
    let body := makeJSONBody arg.val
    let req : Request := ⟨"POST", t.makePath "", "", some body⟩
    match transport req with
    | .error e => ⟨.failed e, arg.val, [req]⟩
    | .ok j =>
      match unmarshalRecordInto arg.typ j arg.val with
      | .error e => ⟨.failed e, arg.val, [req]⟩
      | .ok v => ⟨.succeeded, v, [req]⟩

/-- Model of Table.Delete (airtable.go): validate the record shape, read
the ID, issue the DELETE on table/id, decode the deleteResponse, error
unless Deleted is true, and only then clear ID and CreatedTime via
markAsDeleted. -/
def Table.delete (t : Table) (transport : Transport) (arg : RecordArg) :
    OpTrace RecordVal :=
  match validateRecordArg arg.typ with
  | .error m => ⟨.panicked m, arg.val, []⟩
  | .ok _ =>
    let id := getID arg.val
    let req : Request := ⟨"DELETE", t.makePath id, "", none⟩
    match transport req with
    | .error e => ⟨.failed ("airtable.Table#Delete: request error " ++ e), arg.val, [req]⟩
    | .ok j =>
      match unmarshalDeleteResponse j with
      | .error e => ⟨.failed ("airtable.Table#Delete: could not unpack request " ++ e), arg.val, [req]⟩
      | .ok d =>
        if d.deleted then ⟨.succeeded, markAsDeleted arg.val, [req]⟩
        else ⟨.failed ("airtable.Table#Delete: did not delete, " ++ j.marshal), arg.val, [req]⟩

/-- The FormulaResult struct (fields.go): a number pointer, a string
pointer and an error pointer, with nil pointers modelled as none. -/
structure FormulaResult where
  number : Option Rat
  string : Option String
  error : Option String

/-- Model of FormulaResult.UnmarshalJSON (and the identical switch in
FormulaResult.SelfParse, fields.go): decode the wire value generically,
then dispatch on its dynamic type; a string populates the string variant,
a float64 the number variant, a map with a string under the error key the
error variant; a map without a string error value panics, and every other
shape is a log.Fatal. The panic and the log.Fatal are both modelled as
the error side of Except, with the messages of the source. -/
def FormulaResult.unmarshalJSON (j : JSON) : Except String FormulaResult :=
  match j with
  | .str s => Except.ok ⟨none, some s, none⟩
  | .num x => Except.ok ⟨some x, none, none⟩
  | .obj kvs =>
    match jsonLookup kvs "error" with
    | some (.str e) => Except.ok ⟨none, none, some e⟩
    | _ => Except.error "parse error"
  | _ => Except.error "couldn\x27t parse Formula type as number, string or error"

/-- Number of populated variants of a FormulaResult. -/
def FormulaResult.populatedCount (f : FormulaResult) : Nat :=
  (if f.number.isSome then 1 else 0) +
  (if f.string.isSome then 1 else 0) +
  (if f.error.isSome then 1 else 0)

/-- Model of getFieldName (options.go): look up the Fields member of the
record type, find the named field inside it, and return its json tag when
one exists, the logical name otherwise. A missing logical name is a
log.Fatalf, modelled as the error side of Except; a missing Fields member
would dereference a nil reflect.Type in the source (the ok result of
FieldByName is ignored there), modelled as an error as well. -/
def getFieldName (n : String) (t : GoType) : Except String String :=
  match t.fieldByName "Fields" with
  | none => Except.error "invalid memory address or nil pointer dereference"
  | some fields =>
    match fields.2.1.fieldByName n with
    | none => Except.error ("could not sort by " ++ n ++ ": no such field")
    | some f =>
      match f.2.2 with
      | some tag => Except.ok tag
      | none => Except.ok n

/-- Lift of getFieldName to the optional type stored in Options: the
source stores a reflect.Type that is nil until List assigns it, and
calling FieldByName on nil panics. -/
def getFieldNameO (n : String) : Option GoType → Except String String
  | none => Except.error "invalid memory address or nil pointer dereference"
  | some t => getFieldName n t

/-- The Options struct of options.go: sort pairs, pagination offset, field
allowlist, and the record reflect.Type (nil until set by List). -/
structure Options where
  sort : List (String × String)
  offset : String
  fields : List String
  typ : Option GoType

/-- One iteration family of the sort loop in Options.Encode: for each
(field, direction) pair at index i the encoder emits
sort[i][field]=F&sort[i][direction]=D with every key and value passed
through QueryEscape, the field name resolved by getFieldName first. -/
def encodeSorts (t : Option GoType) : Nat → List (String × String) → Except String (List String)
  | _, [] => Except.ok []
  | i, s :: rest => do
    let field ← getFieldNameO s.1 t
    let comp :=
      queryEscape ("sort[" ++ toString i ++ "][field]") ++ "=" ++ queryEscape field ++ "&" ++
      queryEscape ("sort[" ++ toString i ++ "][direction]") ++ "=" ++ queryEscape s.2
    let others ← encodeSorts t (i + 1) rest
    Except.ok (comp :: others)

/-- One iteration family of the fields loop in Options.Encode: for each
selected name at index i the encoder emits fields[i]=F, escaped, with the
name resolved by getFieldName. -/
def encodeFieldSel (t : Option GoType) : Nat → List String → Except String (List String)
  | _, [] => Except.ok []
  | i, n :: rest => do
    let field ← getFieldNameO n t
    let comp := queryEscape ("fields[" ++ toString i ++ "]") ++ "=" ++ queryEscape field
    let others ← encodeFieldSel t (i + 1) rest
    Except.ok (comp :: others)

/-- Model of Options.Encode (options.go): an offset component when the
offset is nonempty, then the sort components, then the field-selection
components, joined with ampersands. The len-zero guards of the source are
absorbed into the empty-list cases of the loops. The log.Fatalf inside
getFieldName is modelled as the error side of Except. -/
def Options.encode (o : Options) : Except String String := do
  let offsetPart : List String :=
    if o.offset ≠ "" then ["offset=" ++ queryEscape o.offset] else []
  let sorts ← encodeSorts o.typ 0 o.sort
  let flds ← encodeFieldSel o.typ 0 o.fields
  Except.ok (String.intercalate "&" (offsetPart ++ sorts ++ flds))

/-- One decoded list page: the records of the page and the offset (the
pagination cursor) returned alongside them, as decoded into the response
container built by makeResponseContainer. -/
structure Page (α : Type) where
  records : List α
  offset : String

/-- A list server: the transport collaborator and the container decode of
one page, combined, as a function from the cursor sent to the decoded
page (or to the transport / decode error). -/
def PageServer (α : Type) : Type :=
  String → Except String (Page α)

/-- Outcome of the pagination loop. -/
inductive LoopOutcome where
  | finished
  | failed (msg : String)
  | fuelOut
deriving DecidableEq, Repr

/-- Result of the pagination loop: its outcome, the final contents of the
caller slice, and the cursors requested (one transport GET per cursor). -/
structure LoopResult (α : Type) where
  outcome : LoopOutcome
  list : List α
  cursors : List String

/-- Model of the for-loop of Table.List (airtable.go): request one page
with the current cursor, abort on a transport or decode error leaving the
accumulated records as they are, otherwise append the page records to the
caller slice, take the returned offset as the new cursor, and stop when
the new cursor is empty. The Go loop has no bound, so the model carries
explicit fuel; fuelOut marks runs the source would continue. -/
def listLoop (server : PageServer α) : Nat → String → List α → LoopResult α
  | 0, _, acc => ⟨.fuelOut, acc, []⟩
  | Nat.succ n, cursor, acc =>
    match server cursor with
    | .error e => ⟨.failed e, acc, [cursor]⟩
    | .ok page =>
      let acc2 := acc ++ page.records
      if page.offset = "" then ⟨.finished, acc2, [cursor]⟩
      else
        let r := listLoop server n page.offset acc2
        ⟨r.outcome, r.list, cursor :: r.cursors⟩

/-- Map the loop outcome to the operation outcome: a normal break is a nil
error return, a loop abort returns the error; fuelOut is a model artifact
for runs the unbounded source loop would continue. -/
def LoopOutcome.toOp : LoopOutcome → OpOutcome
  | .finished => .succeeded
  | .failed e => .failed e
  | .fuelOut => .failed "model: fuel exhausted"

/-- The query string of one List iteration restricted to the cursor, per
the offset clause of Options.Encode. -/
def listQuery (cursor : String) : String :=
  if cursor = "" then "" else "offset=" ++ queryEscape cursor

/-- Model of Table.List (airtable.go): validate the list shape (panicking
before any request on failure), then run the pagination loop starting
from the empty cursor (the offset field of Options is unexported, so a
caller-supplied Options always starts empty) and the current contents of
the caller slice. -/
def Table.listOp (t : Table) (server : PageServer RecordVal) (fuel : Nat) (arg : ListArg) :
    OpTrace (List RecordVal) :=
  match validateListArg arg.typ with
  | .error m => ⟨.panicked m, arg.val, []⟩
  | .ok _ =>
    let r := listLoop server fuel "" arg.val
    ⟨r.outcome.toOp, r.list, r.cursors.map (fun c => ⟨"GET", t.makePath "", listQuery c, none⟩)⟩

/-- A chain of pages as served for one complete pagination run: the server
answers the current cursor with the next page, every page before the last
carries a nonempty offset that is the cursor of the following request,
and the last page carries the empty offset. -/
def servesChain (server : PageServer α) : String → List (Page α) → Prop
  | _, [] => False
  | c, [p] => server c = Except.ok p ∧ p.offset = ""
  | c, p :: q :: rest => server c = Except.ok p ∧ p.offset ≠ "" ∧ servesChain server p.offset (q :: rest)

/-- A chain of pages followed by a failure: the server answers the chained
cursors with pages whose offsets are all nonempty, and fails on the
cursor after the last page. -/
def servesThenFails (server : PageServer α) (e : String) : String → List (Page α) → Prop
  | c, [] => server c = Except.error e
  | c, p :: rest => server c = Except.ok p ∧ p.offset ≠ "" ∧ servesThenFails server e p.offset rest

/-! Concrete fixtures used by witnesses and counterexamples. -/

/-- A record struct shape satisfying the Record Contract: ID string,
CreatedTime, and a Fields struct whose Title field carries a json rename
tag. -/
def bookShape : GoType :=
  .struct
    [("ID", .str, none),
     ("CreatedTime", .str, none),
     ("Fields", .struct [("Title", .str, some "Book Title"), ("Author", .str, none)], none)]

/-- Pointer to the book record struct, a valid Get/Create/Update/Delete
argument type. -/
def bookPtr : GoType :=
  .ptr bookShape

/-- Pointer to a slice of book record structs, a valid List argument type. -/
def bookListPtr : GoType :=
  .ptr (.slice bookShape)

/-- A sample Fields value. -/
def sampleFields : JSON :=
  .obj [("Title", .str "Dune")]

/-- A sample persisted record. -/
def sampleRec : RecordVal :=
  ⟨"rec123", "2020-01-01T00:00:00Z", sampleFields⟩

/-- A sample record whose ID is empty (never persisted). -/
def emptyIdRec : RecordVal :=
  ⟨"", "", sampleFields⟩

/-- A wire delete response confirming the deletion. -/
def delOkJSON : JSON :=
  .obj [("deleted", .bool true), ("id", .str "rec123")]

/-- A wire delete response denying the deletion. -/
def delFailJSON : JSON :=
  .obj [("deleted", .bool false)]

/-- A transport double answering every request with JSON null. -/
def nullTransport : Transport :=
  fun _ => Except.ok JSON.null

/-- A transport double answering every request with the confirming delete
response. -/
def delOkTransport : Transport :=
  fun _ => Except.ok delOkJSON

/-- A transport double answering every request with the denying delete
response. -/
def delFailTransport : Transport :=
  fun _ => Except.ok delFailJSON

/-- Two sample page records. -/
def recA : RecordVal :=
  ⟨"recA", "", JSON.null⟩

/-- Second sample page record. -/
def recB : RecordVal :=
  ⟨"recB", "", JSON.null⟩

/-- A page server issuing two chained pages: the empty cursor yields the
first page with offset next, the cursor next yields the final page with
the empty offset. -/
def twoPageServer : PageServer RecordVal := fun c =>
  if c = "" then Except.ok ⟨[recA], "next"⟩
  else if c = "next" then Except.ok ⟨[recB], ""⟩
  else Except.error "unexpected cursor"

/-- A page server issuing one page with offset next and then failing on
the cursor next. -/
def failAfterOneServer : PageServer RecordVal := fun c =>
  if c = "" then Except.ok ⟨[recA], "next"⟩
  else Except.error "boom"

/-! Theorems. -/

/-- Claim C10: for every record value, Update leaves the caller record
entirely unchanged — it only reads the Fields member to build the PATCH
body and discards the transport response, so in every outcome (panic,
transport error, or success) the final record state equals the input. -/
theorem update_leaves_record_unchanged (t : Table) (transport : Transport) (arg : RecordArg) :
    (t.update transport arg).state = arg.val := by
  unfold Table.update
  split
  · rfl
  · dsimp only
    split <;> rfl

/-- Claim C7: the write encoding used by Create and Update serializes
exactly the Fields member into a \x7b"fields": ...\x7d envelope; the body
is independent of the ID and CreatedTime members, so they are never
emitted in a request body. -/
theorem write_body_serializes_only_fields (id ct : String) (f : JSON) :
    makeJSONBody ⟨id, ct, f⟩ = "\x7b\"fields\": " ++ f.marshal ++ "\x7d" ∧
    ∀ id' ct', makeJSONBody ⟨id', ct', f⟩ = makeJSONBody ⟨id, ct, f⟩ := by
  exact ⟨rfl, fun _ _ => rfl⟩

/-- Claim C5: decoding a formula-result cell sends a wire number to the
numeric variant, a wire string to the string variant, and a wire object
with a string under the error key to the error variant, leaving the other
two variants empty in each case (every successful decode populates
exactly one variant); a boolean, null, or array wire value is a fatal
decode failure, as is an object without a string error value. -/
theorem formula_result_decode (x : Rat) (s : String) (kvs : List (String × JSON))
    (e : String) (b : Bool) (elems : List JSON) :
    FormulaResult.unmarshalJSON (.num x) = Except.ok ⟨some x, none, none⟩ ∧
    FormulaResult.unmarshalJSON (.str s) = Except.ok ⟨none, some s, none⟩ ∧
    (jsonLookup kvs "error" = some (.str e) →
      FormulaResult.unmarshalJSON (.obj kvs) = Except.ok ⟨none, none, some e⟩) ∧
    (∃ m, FormulaResult.unmarshalJSON (.bool b) = Except.error m) ∧
    (∃ m, FormulaResult.unmarshalJSON .null = Except.error m) ∧
    (∃ m, FormulaResult.unmarshalJSON (.arr elems) = Except.error m) ∧
    (jsonLookup kvs "error" = none → ∃ m, FormulaResult.unmarshalJSON (.obj kvs) = Except.error m) ∧
    (∀ j f, FormulaResult.unmarshalJSON j = Except.ok f → f.populatedCount = 1) := by
  refine ⟨rfl, rfl, ?_, ⟨_, rfl⟩, ⟨_, rfl⟩, ⟨_, rfl⟩, ?_, ?_⟩
  · intro h
    simp only [FormulaResult.unmarshalJSON, h]
  · intro h
    simp only [FormulaResult.unmarshalJSON, h]
    exact ⟨_, rfl⟩
  · intro j f h
    cases j with
    | num y =>
      simp only [FormulaResult.unmarshalJSON, Except.ok.injEq] at h
      subst h; rfl
    | str u =>
      simp only [FormulaResult.unmarshalJSON, Except.ok.injEq] at h
      subst h; rfl
    | obj kvs2 =>
      simp only [FormulaResult.unmarshalJSON] at h
      split at h
      · simp only [Except.ok.injEq] at h
        subst h; rfl
      · exact absurd h (by simp)
    | null => exact absurd h (by simp [FormulaResult.unmarshalJSON])
    | bool b2 => exact absurd h (by simp [FormulaResult.unmarshalJSON])
    | arr es => exact absurd h (by simp [FormulaResult.unmarshalJSON])

/-- Witness for the formula-result decode claim at the concrete inputs of
the spec: 3.5, abc, an error object, and a boolean. -/
theorem formula_result_decode_witness :
    FormulaResult.unmarshalJSON (.num (7 / 2)) = Except.ok ⟨some (7 / 2), none, none⟩ ∧
    FormulaResult.unmarshalJSON (.str "abc") = Except.ok ⟨none, some "abc", none⟩ ∧
    FormulaResult.unmarshalJSON (.obj [("error", .str "#ERROR")]) =
      Except.ok ⟨none, none, some "#ERROR"⟩ ∧
    (∃ m, FormulaResult.unmarshalJSON (.bool true) = Except.error m) := by
  have h := formula_result_decode (7 / 2) "abc" [("error", JSON.str "#ERROR")] "#ERROR" true []
  exact ⟨h.1, h.2.1, h.2.2.1 rfl, h.2.2.2.1⟩

/-- Claim C9: resolving the wire name of a logical field returns the json
rename tag when the field carries one and the logical name unchanged
otherwise; a logical name that does not exist on the Fields member of the
shape is a fatal configuration error, surfaced already by the query
encoder (Options.encode fails on such a sort entry) rather than deferred
to response parsing. -/
theorem field_name_resolution (t ft : GoType) (s : String) (tg : Option String)
    (n : String) (τ : GoType) (tag : String)
    (hF : t.fieldByName "Fields" = some (s, ft, tg)) :
    (∀ s', ft.fieldByName n = some (s', τ, some tag) → getFieldName n t = Except.ok tag) ∧
    (∀ s', ft.fieldByName n = some (s', τ, none) → getFieldName n t = Except.ok n) ∧
    (ft.fieldByName n = none → ∃ m, getFieldName n t = Except.error m) ∧
    (ft.fieldByName n = none →
      ∀ d, ∃ m, Options.encode ⟨[(n, d)], "", [], some t⟩ = Except.error m) := by
  refine ⟨?_, ?_, ?_, ?_⟩
  · intro s' h
    simp only [getFieldName, hF, h]
  · intro s' h
    simp only [getFieldName, hF, h]
  · intro h
    simp only [getFieldName, hF, h]
    exact ⟨_, rfl⟩
  · intro h d
    simp only [Options.encode, encodeSorts, getFieldNameO, getFieldName, hF, h]
    exact ⟨_, rfl⟩

/-- Witness for field-name resolution on the book shape: Title resolves to
its rename tag, Author to itself, and a missing name fails both in
getFieldName and in Options.encode. -/
theorem field_name_resolution_witness :
    getFieldName "Title" bookShape = Except.ok "Book Title" ∧
    getFieldName "Author" bookShape = Except.ok "Author" ∧
    (∃ m, getFieldName "Missing" bookShape = Except.error m) ∧
    (∃ m, Options.encode ⟨[("Missing", "desc")], "", [], some bookShape⟩ = Except.error m) := by
  have fs : GoType := .struct [("Title", .str, some "Book Title"), ("Author", .str, none)]
  have h1 := field_name_resolution bookShape
    (.struct [("Title", .str, some "Book Title"), ("Author", .str, none)])
    "Fields" none "Title" .str "Book Title" rfl
  have h2 := field_name_resolution bookShape
    (.struct [("Title", .str, some "Book Title"), ("Author", .str, none)])
    "Fields" none "Author" .str "Book Title" rfl
  have h3 := field_name_resolution bookShape
    (.struct [("Title", .str, some "Book Title"), ("Author", .str, none)])
    "Fields" none "Missing" .str "Book Title" rfl
  exact ⟨h1.1 "Title" rfl, h2.2.1 "Author" rfl, h3.2.2.1 rfl, h3.2.2.2 rfl "desc"⟩

/-- Claim C4: when the shape-valid Delete call receives a wire response
decoding to Deleted true, it succeeds and the local record afterwards has
empty ID and the zero CreatedTime; when the response decodes to Deleted
false (the deleted key false or absent), Delete returns an error and the
local record (its ID and CreatedTime included) is left unchanged. -/
theorem delete_tombstones_on_confirmation (t : Table) (transport : Transport)
    (arg : RecordArg) (j : JSON) (d : DeleteResponse)
    (hv : validateRecordArg arg.typ = Except.ok ())
    (htr : transport ⟨"DELETE", t.makePath arg.val.id, "", none⟩ = Except.ok j)
    (hd : unmarshalDeleteResponse j = Except.ok d) :
    (d.deleted = true →
      (t.delete transport arg).outcome = OpOutcome.succeeded ∧
      (t.delete transport arg).state.id = "" ∧
      (t.delete transport arg).state.createdTime = "") ∧
    (d.deleted = false →
      (∃ m, (t.delete transport arg).outcome = OpOutcome.failed m) ∧
      (t.delete transport arg).state = arg.val) := by
  have hdel : t.delete transport arg =
      (if d.deleted then ⟨.succeeded, markAsDeleted arg.val, [⟨"DELETE", t.makePath arg.val.id, "", none⟩]⟩
       else ⟨.failed ("airtable.Table#Delete: did not delete, " ++ j.marshal), arg.val,
         [⟨"DELETE", t.makePath arg.val.id, "", none⟩]⟩ : OpTrace RecordVal) := by
    simp only [Table.delete, hv, getID, htr, hd]
  constructor
  · intro hT
    rw [hdel, hT]
    exact ⟨rfl, rfl, rfl⟩
  · intro hF
    rw [hdel, hF]
    exact ⟨⟨_, rfl⟩, rfl⟩

/-- Witness for the Delete tombstone claim: a confirming response clears
ID and CreatedTime of the sample record, a denying response errors and
leaves it unchanged. -/
theorem delete_tombstones_on_confirmation_witness :
    (Table.delete ⟨"Books"⟩ delOkTransport ⟨bookPtr, sampleRec⟩).outcome = OpOutcome.succeeded ∧
    (Table.delete ⟨"Books"⟩ delOkTransport ⟨bookPtr, sampleRec⟩).state.id = "" ∧
    (Table.delete ⟨"Books"⟩ delOkTransport ⟨bookPtr, sampleRec⟩).state.createdTime = "" ∧
    (∃ m, (Table.delete ⟨"Books"⟩ delFailTransport ⟨bookPtr, sampleRec⟩).outcome = OpOutcome.failed m) ∧
    (Table.delete ⟨"Books"⟩ delFailTransport ⟨bookPtr, sampleRec⟩).state = sampleRec := by
  have hok := delete_tombstones_on_confirmation ⟨"Books"⟩ delOkTransport ⟨bookPtr, sampleRec⟩
    delOkJSON ⟨true, "rec123"⟩ rfl rfl (by rfl)
  have hfail := delete_tombstones_on_confirmation ⟨"Books"⟩ delFailTransport ⟨bookPtr, sampleRec⟩
    delFailJSON ⟨false, ""⟩ rfl rfl (by rfl)
  obtain ⟨o1, i1, c1⟩ := hok.1 rfl
  obtain ⟨e2, s2⟩ := hfail.2 rfl
  exact ⟨o1, i1, c1, e2, s2⟩

/-- Claim C2 counterexample: a shape-valid record with empty ID is
updated and deleted over the network — both operations issue their
transport request against the bare table path and run to completion, so
the claim that they fail fatally before issuing any transport request is
false on the code. -/
theorem empty_id_counterexample :
    (Table.update ⟨"Books"⟩ nullTransport ⟨bookPtr, emptyIdRec⟩).requests =
      [⟨"PATCH", "Books", "", some (makeJSONBody emptyIdRec)⟩] ∧
    (Table.update ⟨"Books"⟩ nullTransport ⟨bookPtr, emptyIdRec⟩).outcome = OpOutcome.succeeded ∧
    (Table.delete ⟨"Books"⟩ delOkTransport ⟨bookPtr, emptyIdRec⟩).requests =
      [⟨"DELETE", "Books", "", none⟩] ∧
    (Table.delete ⟨"Books"⟩ delOkTransport ⟨bookPtr, emptyIdRec⟩).outcome = OpOutcome.succeeded := by
  refine ⟨?_, rfl, ?_, rfl⟩ <;> rfl

/-- Claim C2 amended: neither Update nor Delete checks for an empty ID.
For every shape-valid record whose ID is empty, each operation issues its
transport request (PATCH resp. DELETE) against the bare table path
(makePath of the empty id, i.e. the escaped table name without a record
segment) and never panics. -/
theorem empty_id_still_sent (t : Table) (transport : Transport) (arg : RecordArg)
    (hv : validateRecordArg arg.typ = Except.ok ()) (hid : arg.val.id = "") :
    (t.update transport arg).requests =
      [⟨"PATCH", pathEscape t.name, "", some (makeJSONBody arg.val)⟩] ∧
    (∀ m, (t.update transport arg).outcome ≠ OpOutcome.panicked m) ∧
    (t.delete transport arg).requests = [⟨"DELETE", pathEscape t.name, "", none⟩] ∧
    (∀ m, (t.delete transport arg).outcome ≠ OpOutcome.panicked m) := by
  have hpath : t.makePath (getID arg.val) = pathEscape t.name := by
    simp [getID, hid, Table.makePath]
  refine ⟨?_, ?_, ?_, ?_⟩
  · simp only [Table.update, hv, hpath]
    split <;> rfl
  · intro m
    simp only [Table.update, hv, hpath]
    split <;> simp
  · simp only [Table.delete, hv, hpath]
    split
    · rfl
    · split
      · rfl
      · split <;> rfl
  · intro m
    simp only [Table.delete, hv, hpath]
    split
    · simp
    · split
      · simp
      · split <;> simp

/-- Witness for the amended empty-ID claim at the concrete fixtures. -/
theorem empty_id_still_sent_witness :
    (Table.update ⟨"Books"⟩ nullTransport ⟨bookPtr, emptyIdRec⟩).requests =
      [⟨"PATCH", pathEscape "Books", "", some (makeJSONBody emptyIdRec)⟩] ∧
    (∀ m, (Table.update ⟨"Books"⟩ nullTransport ⟨bookPtr, emptyIdRec⟩).outcome ≠
      OpOutcome.panicked m) ∧
    (Table.delete ⟨"Books"⟩ delOkTransport ⟨bookPtr, emptyIdRec⟩).requests =
      [⟨"DELETE", pathEscape "Books", "", none⟩] ∧
    (∀ m, (Table.delete ⟨"Books"⟩ delOkTransport ⟨bookPtr, emptyIdRec⟩).outcome ≠
      OpOutcome.panicked m) :=
  empty_id_still_sent ⟨"Books"⟩ nullTransport ⟨bookPtr, emptyIdRec⟩ (by rfl) (by rfl)
    |>.imp id (fun h => h.imp id (fun h2 => by
      have hd := empty_id_still_sent ⟨"Books"⟩ delOkTransport ⟨bookPtr, emptyIdRec⟩
        (by rfl) (by rfl)
      exact ⟨hd.2.2.1, hd.2.2.2⟩))

/-- Claim C1 counterexample: Get performs no shape validation — invoked
with a record argument that is not even a pointer, it still issues its
GET request (the failure surfaces only afterwards, as a decode error, not
as a pre-transport type-error panic). -/
theorem get_skips_validation_counterexample :
    (Table.get ⟨"Books"⟩ nullTransport "rec1" ⟨GoType.str, ⟨"rec1", "", JSON.null⟩⟩).requests =
      [⟨"GET", "Books/rec1", "", none⟩] ∧
    (Table.get ⟨"Books"⟩ nullTransport "rec1" ⟨GoType.str, ⟨"rec1", "", JSON.null⟩⟩).outcome =
      OpOutcome.failed "json: Unmarshal(non-pointer string)" := by
  exact ⟨rfl, rfl⟩

/-- Claim C1 amended: on a record or list argument whose shape violates
the Record Contract, List, Create, Update and Delete panic with the
descriptive type error from validation and issue no transport request at
all; Get alone performs no shape validation and issues its GET request
regardless of the argument shape. -/
theorem shape_validation_blocks_transport (t : Table) (transport : Transport)
    (server : PageServer RecordVal) (fuel : Nat) (arg : RecordArg) (larg : ListArg)
    (m m' id : String)
    (h1 : validateRecordArg arg.typ = Except.error m)
    (h2 : validateListArg larg.typ = Except.error m') :
    t.update transport arg = ⟨OpOutcome.panicked m, arg.val, []⟩ ∧
    t.create transport arg = ⟨OpOutcome.panicked m, arg.val, []⟩ ∧
    t.delete transport arg = ⟨OpOutcome.panicked m, arg.val, []⟩ ∧
    t.listOp server fuel larg = ⟨OpOutcome.panicked m', larg.val, []⟩ ∧
    (t.get transport id arg).requests = [⟨"GET", t.makePath id, "", none⟩] := by
  refine ⟨?_, ?_, ?_, ?_, ?_⟩
  · simp only [Table.update, h1]
  · simp only [Table.create, h1]
  · simp only [Table.delete, h1]
  · simp only [Table.listOp, h2]
  · simp only [Table.get]
    split
    · rfl
    · split <;> rfl

/-- Witness for the amended shape-validation claim: a plain string
argument panics all four validated operations before any request, with
the message of the source. -/
theorem shape_validation_blocks_transport_witness :
    Table.update ⟨"Books"⟩ nullTransport ⟨GoType.str, sampleRec⟩ =
      ⟨OpOutcome.panicked "airtable type error: recordPtr must be a pointer, got string",
        sampleRec, []⟩ ∧
    Table.create ⟨"Books"⟩ nullTransport ⟨GoType.str, sampleRec⟩ =
      ⟨OpOutcome.panicked "airtable type error: recordPtr must be a pointer, got string",
        sampleRec, []⟩ ∧
    Table.delete ⟨"Books"⟩ nullTransport ⟨GoType.str, sampleRec⟩ =
      ⟨OpOutcome.panicked "airtable type error: recordPtr must be a pointer, got string",
        sampleRec, []⟩ ∧
    Table.listOp ⟨"Books"⟩ twoPageServer 5 ⟨GoType.str, []⟩ =
      ⟨OpOutcome.panicked "airtable type error: listPtr must be a pointer, got string", [], []⟩ ∧
    (Table.get ⟨"Books"⟩ nullTransport "rec1" ⟨GoType.str, sampleRec⟩).requests =
      [⟨"GET", "Books/rec1", "", none⟩] := by
  have h := shape_validation_blocks_transport ⟨"Books"⟩ nullTransport twoPageServer 5
    ⟨GoType.str, sampleRec⟩ ⟨GoType.str, []⟩
    "airtable type error: recordPtr must be a pointer, got string"
    "airtable type error: listPtr must be a pointer, got string"
    "rec1" (by rfl) (by rfl)
  simpa [Table.makePath, pathEscape, pathEscapeChar, isUnreserved] using h

/-- Helper: on a complete chain of pages the loop finishes with the pages
concatenated onto the accumulator, for any fuel at least the number of
pages. -/
theorem listLoop_on_chain {α : Type} (server : PageServer α) :
    ∀ (ps : List (Page α)) (c : String) (acc : List α) (fuel : Nat),
      servesChain server c ps → ps.length ≤ fuel →
      (listLoop server fuel c acc).outcome = LoopOutcome.finished ∧
      (listLoop server fuel c acc).list = acc ++ (ps.map Page.records).flatten := by
  intro ps
  induction ps with
  | nil => intro c acc fuel h _; exact absurd h (by simp [servesChain])
  | cons p rest ih =>
    intro c acc fuel h hf
    cases fuel with
    | zero => exact absurd hf (by simp)
    | succ n =>
      cases rest with
      | nil =>
        obtain ⟨hs, ho⟩ := h
        simp [listLoop, hs, ho]
      | cons q rest2 =>
        obtain ⟨hs, ho, hrest⟩ := h
        have hn : (q :: rest2).length ≤ n := by
          simpa using Nat.le_of_succ_le_succ hf
        have := ih p.offset (acc ++ p.records) n hrest hn
        simp only [listLoop, hs, if_neg ho]
        refine ⟨this.1, ?_⟩
        rw [this.2]
        simp

/-- Helper: on a chain of pages followed by a server failure the loop
aborts with that error, keeping the records of the successful pages on
the accumulator, for any fuel beyond the number of successful pages. -/
theorem listLoop_on_failure {α : Type} (server : PageServer α) (e : String) :
    ∀ (ps : List (Page α)) (c : String) (acc : List α) (fuel : Nat),
      servesThenFails server e c ps → ps.length < fuel →
      (listLoop server fuel c acc).outcome = LoopOutcome.failed e ∧
      (listLoop server fuel c acc).list = acc ++ (ps.map Page.records).flatten := by
  intro ps
  induction ps with
  | nil =>
    intro c acc fuel h hf
    cases fuel with
    | zero => exact absurd hf (by simp)
    | succ n =>
      have hs : server c = Except.error e := h
      simp [listLoop, hs]
  | cons p rest ih =>
    intro c acc fuel h hf
    cases fuel with
    | zero => exact absurd hf (by simp)
    | succ n =>
      obtain ⟨hs, ho, hrest⟩ := h
      have hn : rest.length < n := by simpa using Nat.lt_of_succ_lt_succ hf
      have := ih p.offset (acc ++ p.records) n hrest hn
      simp only [listLoop, hs, if_neg ho]
      refine ⟨this.1, ?_⟩
      rw [this.2]
      simp

/-- Claim C3: for every chained page sequence whose final offset is empty
(all earlier offsets nonempty and each fed back as the next cursor), List
terminates — any fuel at least the page count yields the same result, a
nil error return — and leaves the caller slice equal to its previous
contents followed by the concatenation of all pages in page order. -/
theorem list_concatenates_pages (t : Table) (server : PageServer RecordVal)
    (arg : ListArg) (ps : List (Page RecordVal)) (fuel : Nat)
    (hv : validateListArg arg.typ = Except.ok ())
    (hc : servesChain server "" ps) (hf : ps.length ≤ fuel) :
    (t.listOp server fuel arg).outcome = OpOutcome.succeeded ∧
    (t.listOp server fuel arg).state = arg.val ++ (ps.map Page.records).flatten := by
  have h := listLoop_on_chain server ps "" arg.val fuel hc hf
  simp only [Table.listOp, hv]
  exact ⟨by rw [h.1]; rfl, h.2⟩

/-- Witness: the two-page server is consumed completely, concatenating
both pages behind the initially empty caller slice. -/
theorem list_concatenates_pages_witness :
    (Table.listOp ⟨"Books"⟩ twoPageServer 2 ⟨bookListPtr, []⟩).outcome = OpOutcome.succeeded ∧
    (Table.listOp ⟨"Books"⟩ twoPageServer 2 ⟨bookListPtr, []⟩).state =
      [] ++ ([⟨[recA], "next"⟩, ⟨[recB], ""⟩].map (Page.records (α := RecordVal))).flatten := by
  refine list_concatenates_pages ⟨"Books"⟩ twoPageServer ⟨bookListPtr, []⟩
    [⟨[recA], "next"⟩, ⟨[recB], ""⟩] 2 (by rfl) ?_ (by simp)
  refine ⟨by rfl, by simp [twoPageServer], ?_, rfl⟩
  simp [twoPageServer]

/-- Claim C6: if the transport call or the decode of a later page fails,
the loop aborts immediately, returning that error, while the records
already appended from the earlier pages remain in the caller slice. -/
theorem list_failure_preserves_prior_pages (t : Table) (server : PageServer RecordVal)
    (arg : ListArg) (ps : List (Page RecordVal)) (e : String) (fuel : Nat)
    (hv : validateListArg arg.typ = Except.ok ())
    (hc : servesThenFails server e "" ps) (hf : ps.length < fuel) :
    (t.listOp server fuel arg).outcome = OpOutcome.failed e ∧
    (t.listOp server fuel arg).state = arg.val ++ (ps.map Page.records).flatten := by
  have h := listLoop_on_failure server e ps "" arg.val fuel hc hf
  simp only [Table.listOp, hv]
  exact ⟨by rw [h.1]; rfl, h.2⟩

/-- Witness: the failing server aborts the loop with its error after one
successful page, whose records remain in the caller slice. -/
theorem list_failure_preserves_prior_pages_witness :
    (Table.listOp ⟨"Books"⟩ failAfterOneServer 5 ⟨bookListPtr, []⟩).outcome =
      OpOutcome.failed "boom" ∧
    (Table.listOp ⟨"Books"⟩ failAfterOneServer 5 ⟨bookListPtr, []⟩).state =
      [] ++ ([⟨[recA], "next"⟩].map (Page.records (α := RecordVal))).flatten := by
  refine list_failure_preserves_prior_pages ⟨"Books"⟩ failAfterOneServer ⟨bookListPtr, []⟩
    [⟨[recA], "next"⟩] "boom" 5 (by rfl) ?_ (by simp)
  exact ⟨by rfl, by simp [failAfterOneServer], by simp [failAfterOneServer, servesThenFails]⟩

/-- Helper: bind on a successful Except value reduces to the
continuation. -/
theorem except_bind_ok {α β : Type} (a : α) (f : α → Except String β) :
    (Except.ok a : Except String α) >>= f = f a :=
  rfl

/-- Helper: the sort loop of Options.Encode emits one escaped
field/direction pair per sort entry, indexed consecutively from the
starting index, when every sort name resolves. -/
theorem encodeSorts_ok (t : GoType) :
    ∀ (l : List (String × String)) (k : Nat) (w : Nat → String),
      (∀ i (h : i < l.length), getFieldName (l.get ⟨i, h⟩).1 t = Except.ok (w (k + i))) →
      encodeSorts (some t) k l = Except.ok ((l.enumFrom k).map (fun p =>
        queryEscape ("sort[" ++ toString p.1 ++ "][field]") ++ "=" ++ queryEscape (w p.1) ++ "&" ++
        queryEscape ("sort[" ++ toString p.1 ++ "][direction]") ++ "=" ++ queryEscape p.2.2)) := by
  intro l
  induction l with
  | nil => intro k w _; rfl
  | cons s rest ih =>
    intro k w hw
    have h0 : getFieldName s.1 t = Except.ok (w k) := by
      have := hw 0 (by simp)
      simpa using this
    have hrest := ih (k + 1) w (by
      intro i hi
      have hlt : i + 1 < (s :: rest).length := by simpa using Nat.succ_lt_succ hi
      have := hw (i + 1) hlt
      have harg : k + (i + 1) = k + 1 + i := by omega
      rw [harg] at this
      simpa using this)
    simp only [encodeSorts, getFieldNameO, h0, hrest, except_bind_ok, List.enumFrom, List.map]

/-- Helper: the field-selection loop of Options.Encode emits one escaped
fields key per selected name, indexed consecutively from the starting
index, when every name resolves. -/
theorem encodeFieldSel_ok (t : GoType) :
    ∀ (l : List String) (k : Nat) (v : Nat → String),
      (∀ i (h : i < l.length), getFieldName (l.get ⟨i, h⟩) t = Except.ok (v (k + i))) →
      encodeFieldSel (some t) k l = Except.ok ((l.enumFrom k).map (fun p =>
        queryEscape ("fields[" ++ toString p.1 ++ "]") ++ "=" ++ queryEscape (v p.1))) := by
  intro l
  induction l with
  | nil => intro k v _; rfl
  | cons s rest ih =>
    intro k v hv
    have h0 : getFieldName s t = Except.ok (v k) := by
      have := hv 0 (by simp)
      simpa using this
    have hrest := ih (k + 1) v (by
      intro i hi
      have hlt : i + 1 < (s :: rest).length := by simpa using Nat.succ_lt_succ hi
      have := hv (i + 1) hlt
      have harg : k + (i + 1) = k + 1 + i := by omega
      rw [harg] at this
      simpa using this)
    simp only [encodeFieldSel, getFieldNameO, h0, hrest, except_bind_ok, List.enumFrom, List.map]

/-- Claim C8: for an Options value with N sort entries and M selected
fields, all of whose logical names resolve on the record shape, Encode
emits exactly N sort[i][field]/sort[i][direction] pairs and exactly M
fields[i] keys, indexed 0..N-1 and 0..M-1 in order, every key and value
percent-escaped, joined by ampersands after an optional offset component;
and an empty Options value encodes to the empty string. -/
theorem options_encode_counts (o : Options) (t : GoType) (w v : Nat → String)
    (ht : o.typ = some t)
    (hw : ∀ i (h : i < o.sort.length), getFieldName (o.sort.get ⟨i, h⟩).1 t = Except.ok (w i))
    (hv : ∀ i (h : i < o.fields.length), getFieldName (o.fields.get ⟨i, h⟩) t = Except.ok (v i)) :
    o.encode = Except.ok (String.intercalate "&" (
      (if o.offset ≠ "" then ["offset=" ++ queryEscape o.offset] else []) ++
      (o.sort.enum.map (fun p =>
        queryEscape ("sort[" ++ toString p.1 ++ "][field]") ++ "=" ++ queryEscape (w p.1) ++ "&" ++
        queryEscape ("sort[" ++ toString p.1 ++ "][direction]") ++ "=" ++ queryEscape p.2.2)) ++
      (o.fields.enum.map (fun p =>
        queryEscape ("fields[" ++ toString p.1 ++ "]") ++ "=" ++ queryEscape (v p.1))))) ∧
    Options.encode ⟨[], "", [], none⟩ = Except.ok "" := by
  constructor
  · have hs := encodeSorts_ok t o.sort 0 w (by intro i hi; simpa using hw i hi)
    have hf := encodeFieldSel_ok t o.fields 0 v (by intro i hi; simpa using hv i hi)
    simp only [Options.encode, ht, hs, hf, except_bind_ok]
    rfl
  · rfl

/-- Witness: one sort entry on the tag-renamed Title field and one
selected Author field encode to exactly one escaped sort pair at index 0
and one escaped fields key at index 0; the empty Options value encodes to
the empty string. -/
theorem options_encode_counts_witness :
    Options.encode ⟨[("Title", "desc")], "", ["Author"], some bookShape⟩ =
      Except.ok "sort%5B0%5D%5Bfield%5D=Book+Title&sort%5B0%5D%5Bdirection%5D=desc&fields%5B0%5D=Author" ∧
    Options.encode ⟨[], "", [], none⟩ = Except.ok "" := by
  have h := options_encode_counts ⟨[("Title", "desc")], "", ["Author"], some bookShape⟩
    bookShape (fun _ => "Book Title") (fun _ => "Author") rfl
    (by intro i hi
        have hi0 : i = 0 := by simpa using Nat.lt_one_iff.mp (by simpa using hi)
        subst hi0
        rfl)
    (by intro i hi
        have hi0 : i = 0 := by simpa using Nat.lt_one_iff.mp (by simpa using hi)
        subst hi0
        rfl)
  refine ⟨?_, h.2⟩
  rw [h.1]
  rfl

end Airtable
